import Mathlib

set_option maxRecDepth 100000

/-!
Verification development for the VoiceDiary analysis pipeline
(backend/ai_service.py).  Python text values are embedded as `List Char`,
Python floats as `ℚ` (with the external `math.sqrt` abstracted as a
function parameter), and each external service call as an explicit
outcome value.  Every definition is translated from the source file;
doc comments cite the corresponding lines.
-/

/-- Model of Python `str.strip` whitespace test (space, tab, CR, LF). -/
def isSpaceChar (c : Char) : Bool := c.isWhitespace

/-- Python `str.strip`: drop whitespace from both ends.
Implemented as a front `dropWhile` followed by a reversed `dropWhile`. -/
def pyStrip (l : List Char) : List Char :=
  ((((l.dropWhile isSpaceChar).reverse).dropWhile isSpaceChar)).reverse

/-- Python `str.lower` (ASCII case fold, which covers the labels used). -/
def pyLower (l : List Char) : List Char := l.map Char.toLower

/-- The backquote character, written via its code point. -/
def bq : Char := Char.ofNat 96

/-- The fenced-code-block delimiter three-backquote sequence. -/
def fenceSeq : List Char := [bq, bq, bq]

/-- Does the list start with the three-backquote delimiter?
This is the per-position test used by `str.split` on that separator. -/
def fenceAt : List Char → Bool
  | a :: b :: c :: _ => a == bq && b == bq && c == bq
  | _ => false

/-- Python `"```" in raw`: does the delimiter occur anywhere? -/
def hasFence : List Char → Bool
  | [] => false
  | c :: t => fenceAt (c :: t) || hasFence t

/-- Worker for Python `raw.split("```")` (left-to-right, non-overlapping,
keeping empty pieces).  At each position: if the delimiter starts here,
emit the accumulated piece and skip it, else shift one character. -/
def pySplitGo : List Char → List Char → List (List Char)
  | [], acc => [acc.reverse]
  | a :: b :: c :: t, acc =>
    if a == bq && b == bq && c == bq then acc.reverse :: pySplitGo t []
    else pySplitGo (b :: c :: t) (a :: acc)
  | a :: t, acc => pySplitGo t (a :: acc)

/-- One-step unfolding of `pySplitGo` phrased through `fenceAt`. -/
theorem pySplitGo_cons (c : Char) (t acc : List Char) :
    pySplitGo (c :: t) acc =
      if fenceAt (c :: t) then acc.reverse :: pySplitGo (t.drop 2) []
      else pySplitGo t (c :: acc) := by
  match t with
  | [] => simp [pySplitGo, fenceAt]
  | [b] => simp [pySplitGo, fenceAt]
  | b :: d :: rest => simp [pySplitGo, fenceAt]

/-- Python `raw.split("```")`. -/
def pySplit (l : List Char) : List (List Char) := pySplitGo l []

/-- Python `raw.startswith("json")`. -/
def startsJson : List Char → Bool
  | 'j' :: 's' :: 'o' :: 'n' :: _ => true
  | _ => false

/-- ai_service.py lines 240-245: strip a fenced-code-block wrapper from a
model response.  If the delimiter occurs, keep piece index 1 of the split,
drop a leading `json` language tag, and strip whitespace; otherwise the
text is returned unchanged.  (When the delimiter occurs the split has at
least two pieces, so the Python index 1 never faults; `getD` supplies an
unreachable default.) -/
def stripFence (raw : List Char) : List Char :=
  if hasFence raw then
    let p := (pySplit raw).getD 1 []
    let p := if startsJson p then p.drop 4 else p
    pyStrip p
  else raw

/-- Result of `json.loads` plus field extraction on the sentiment response
(ai_service.py lines 247-249).  `fail` stands for any raised exception
(unparseable JSON, a non-dict value, a non-string label, a score that
`float` cannot convert); `ok` carries the optional `label` string and the
optional numeric `score`. -/
inductive ParseOutcome
  | fail
  | ok (label : Option (List Char)) (score : Option ℚ)

/-- SentimentResult record: label plus score. -/
structure SentimentResult where
  label : List Char
  score : ℚ
deriving DecidableEq

/-- ai_service.py lines 248-258: label defaulting/lowercasing/validation
and score defaulting/clamping applied to the parsed response. -/
def normalizeParsed : ParseOutcome → SentimentResult
  | .fail => ⟨"neutral".toList, 1/2⟩
  | .ok lbl sc =>
    let l := pyStrip (pyLower (lbl.getD "neutral".toList))
    let l :=
      if l = "positive".toList ∨ l = "negative".toList ∨ l = "neutral".toList
      then l else "neutral".toList
    ⟨l, max 0 (min 1 (sc.getD (1/2)))⟩

/-- Outcome of one `hf_client.chat_completion` call: either it raises
(`exc`, covering transport errors, timeouts and malformed result objects)
or it yields a text content. -/
inductive ChatOutcome
  | exc
  | ok (content : List Char)

/-- ai_service.py lines 182-262, `analyze_sentiment`: any raised exception
yields the safe default; otherwise the response content is stripped,
unfenced, parsed and normalized.  The transcript text and voice cues only
shape the prompt, whose effect is captured by the `chat` outcome. -/
def analyze_sentiment (_text _voice_cues : List Char) (chat : ChatOutcome)
    (parse : List Char → ParseOutcome) : SentimentResult :=
  match chat with
  | .exc => ⟨"neutral".toList, 1/2⟩
  | .ok content => normalizeParsed (parse (stripFence (pyStrip content)))

/-- ai_service.py lines 270-274: the fixed tone-phrase table with its
dict-get default `"düşünceli"`. -/
def sentiment_tr (sentiment : List Char) : List Char :=
  if sentiment = "positive".toList then "mutlu ve pozitif".toList
  else if sentiment = "negative".toList then "üzgün veya sıkıntılı".toList
  else if sentiment = "neutral".toList then "sakin ve düşünceli".toList
  else "düşünceli".toList

/-- ai_service.py lines 287-292: the user message of the feedback request,
quoting the first 500 characters of the transcript and the tone phrase. -/
def feedbackUserContent (transcription sentiment : List Char) : List Char :=
  "Kullanıcının söylediği: \"".toList ++ transcription.take 500
    ++ "\"\nDuygu durumu: ".toList ++ sentiment_tr sentiment

/-- ai_service.py line 309: the canned positive fallback feedback. -/
def fbPositive : List Char :=
  "Harika! Mutluluğunuzu paylaştığınız için teşekkürler. Bu olumlu enerjinizi korumaya devam edin!".toList

/-- ai_service.py line 310: the canned negative fallback feedback. -/
def fbNegative : List Char :=
  "Anlıyorum, zor zamanlardan geçiyorsunuz. Bu duyguları paylaşmak önemli. Her şey düzelecek, sabırlı olun.".toList

/-- ai_service.py line 311: the canned neutral fallback feedback. -/
def fbNeutral : List Char :=
  "Düşüncelerinizi paylaştığınız için teşekkürler. Kendinizi ifade etmek sağlıklı bir alışkanlık.".toList

/-- ai_service.py line 313: `fallback.get(sentiment, fallback["neutral"])` —
the neutral entry doubles as the default for unrecognized labels. -/
def fallbackFeedback (sentiment : List Char) : List Char :=
  if sentiment = "positive".toList then fbPositive
  else if sentiment = "negative".toList then fbNegative
  else fbNeutral

/-- ai_service.py lines 265-313, `generate_feedback`: on a successful chat
call the stripped content is returned; on any raised exception the canned
fallback keyed by the sentiment label is returned.  `chat = none` models
the call raising. -/
def generate_feedback (chat : Option (List Char))
    (_transcription sentiment : List Char) : List Char :=
  match chat with
  | some content => pyStrip content
  | none => fallbackFeedback sentiment

/-- Outcome of the `subprocess.run` ffmpeg decode (ai_service.py lines
103-107): either the call raises (`exc`, e.g. a timeout or missing
binary) or it completes with an exit status and a stdout byte string. -/
inductive FFmpegOutcome
  | exc
  | run (returncode : Int) (stdout : List Nat)

/-- AcousticFeatures record: the two dict shapes returned by
`analyze_audio_features` (degraded dicts omit the numeric fields). -/
structure AudioFeatures where
  description : List Char
  energy_level : List Char
  rms : Option ℚ
  energy_cv : Option ℚ
  zcr : Option ℚ
deriving DecidableEq

/-- ai_service.py line 110: the short-buffer degraded result. -/
def degradedShort : AudioFeatures :=
  ⟨"Ses analizi yapılamadı".toList, "unknown".toList, none, none, none⟩

/-- ai_service.py line 179: the exception-path degraded result. -/
def degradedExc : AudioFeatures :=
  ⟨"Ses tonu analizi yapılamadı".toList, "unknown".toList, none, none, none⟩

/-- `struct.unpack` body: consecutive little-endian byte pairs decoded as
signed 16-bit integers. -/
def decodePairs : List Nat → List Int
  | lo :: hi :: rest =>
    (if lo + 256 * hi ≥ 32768 then (lo + 256 * hi : Int) - 65536
     else (lo + 256 * hi : Int)) :: decodePairs rest
  | _ => []

/-- ai_service.py line 112, `struct.unpack(f'<{len(raw)//2}h', raw)`:
fails (raises `struct.error`) unless the byte count is even. -/
def decodeSamples (raw : List Nat) : Option (List Int) :=
  if raw.length % 2 = 0 then some (decodePairs raw) else none

/-- Sum of squared samples as a rational. -/
def sqSum (l : List Int) : ℚ := (l.map (fun s => ((s : ℚ)) * ((s : ℚ)))).sum

/-- Worker for the Python slice loop `[samples[i:i+seg_size] for i in
range(0, n, seg_size)]`: consecutive chunks of `k` samples. -/
def chunksGo (k : Nat) : Nat → List Int → List (List Int)
  | _, [] => []
  | 0, l => [l]
  | fuel + 1, l => l.take k :: chunksGo k fuel (l.drop k)

/-- Consecutive chunks of `k` samples (the last may be shorter). -/
def chunksOf (k : Nat) (l : List Int) : List (List Int) := chunksGo k l.length l

/-- ai_service.py lines 121-124: RMS energy of each 0.5 s (8000-sample)
segment, keeping only segments longer than 100 samples.  `sq` abstracts
`math.sqrt`. -/
def segmentEnergies (sq : ℚ → ℚ) (samples : List Int) : List ℚ :=
  ((chunksOf 8000 samples).filter (fun seg => 100 < seg.length)).map
    (fun seg => sq (sqSum seg / (seg.length : ℚ)))

/-- Mean of the segment energies. -/
def meanEnergy (sq : ℚ → ℚ) (samples : List Int) : ℚ :=
  (segmentEnergies sq samples).sum / ((segmentEnergies sq samples).length : ℚ)

/-- ai_service.py lines 126-131: coefficient of variation of the segment
energies, defined as 0 when there is no valid segment or the mean is not
positive. -/
def energyCv (sq : ℚ → ℚ) (samples : List Int) : ℚ :=
  if segmentEnergies sq samples = [] then 0
  else if meanEnergy sq samples > 0 then
    sq (((segmentEnergies sq samples).map
          (fun e => (e - meanEnergy sq samples) * (e - meanEnergy sq samples))).sum
        / ((segmentEnergies sq samples).length : ℚ))
      / meanEnergy sq samples
  else 0

/-- ai_service.py lines 134-135: count of adjacent sample pairs whose
nonnegativity differs. -/
def countCrossings : List Int → Nat
  | x :: y :: rest =>
    (if (decide (0 ≤ y)) ≠ (decide (0 ≤ x)) then 1 else 0) + countCrossings (y :: rest)
  | _ => 0

/-- ai_service.py lines 140-147: the loudness cue tiers. -/
def loudCue (rms : ℚ) : List Char :=
  if rms > 3000 then "yüksek sesle konuşuyor (heyecanlı veya sinirli olabilir)".toList
  else if rms > 1500 then "normal ses seviyesinde konuşuyor".toList
  else if rms > 500 then "kısık sesle konuşuyor (sakin veya üzgün olabilir)".toList
  else "çok sessiz konuşuyor".toList

/-- ai_service.py lines 149-154: the tonal-variability cue tiers. -/
def varCue (cv : ℚ) : List Char :=
  if cv > 3/5 then "ses tonu çok değişken (duygusal, gülen veya ağlayan)".toList
  else if cv > 7/20 then "ses tonunda belirgin değişimler var (canlı konuşma)".toList
  else "ses tonu monoton ve düz".toList

/-- ai_service.py lines 156-159: the optional pitch-proxy cue. -/
def zcrCue (z : ℚ) : List (List Char) :=
  if z > 3/20 then ["yüksek frekanslı sesler var (gülme, heyecan belirtisi)".toList]
  else if z < 1/20 then ["düşük tonlu, ağır konuşma".toList]
  else []

/-- ai_service.py lines 161-162: the optional transient cue. -/
def peakCue (peak : ℚ) : List (List Char) :=
  if peak > 20000 then ["ani yüksek sesler var (kahkaha, bağırma veya vurgu)".toList]
  else []

/-- ai_service.py line 165: the energy-level tiers. -/
def levelOf (rms : ℚ) : List Char :=
  if rms > 2000 then "high".toList
  else if rms > 800 then "medium".toList else "low".toList

/-- ai_service.py lines 112-176: the full analysis of a decoded sample
buffer. -/
def fullFeatures (sq : ℚ → ℚ) (samples : List Int) : AudioFeatures :=
  let n : ℚ := (samples.length : ℚ)
  let rms := sq (sqSum samples / n)
  let peak : ℚ := (((samples.map Int.natAbs).foldr max 0 : ℕ) : ℚ)
  let cv := energyCv sq samples
  let zcr : ℚ := (countCrossings samples : ℚ) / n
  let cues := [loudCue rms, varCue cv] ++ zcrCue zcr ++ peakCue peak
  ⟨List.intercalate "; ".toList cues, levelOf rms, some rms, some cv, some zcr⟩

/-- ai_service.py lines 98-179, `analyze_audio_features`: a raised ffmpeg
call or a failed unpack yields the exception-path degraded dict, a stdout
shorter than 200 bytes yields the short-buffer degraded dict, and the exit
status of the decoder is never read. -/
def analyze_audio_features (sq : ℚ → ℚ) : FFmpegOutcome → AudioFeatures
  | .exc => degradedExc
  | .run _rc out =>
    if out.length < 200 then degradedShort
    else
      match decodeSamples out with
      | none => degradedExc
      | some samples => fullFeatures sq samples

/-- Outcome of one whisper attempt (one `requests.post` plus response
handling, ai_service.py lines 66-90): a 503 with an optional parseable
`estimated_time` hint, a raised `HTTPError` from `raise_for_status`, any
other raised exception (timeout, connection fault, malformed JSON body,
including a non-numeric 503 hint making `min`/`sleep` raise), or a 2xx
body carrying a `text` field. -/
inductive WhisperAttempt
  | unavailable (estTime : Option ℚ)
  | httpError
  | transportFault
  | success (text : List Char)

/-- The two failure raises of `transcribe_audio`: line 95 wrapping a
re-raised `HTTPError` (transcription failed) and line 92 after the loop
(five attempts exhausted). -/
inductive TranscribeError
  | failed
  | exhausted
deriving DecidableEq

/-- Transcript record returned on success (ai_service.py line 84). -/
structure Transcript where
  text : List Char
  language : List Char
deriving DecidableEq

/-- One whole run of `transcribe_audio`: the returned value or raised
error, the trace of `time.sleep` durations, and how many attempts were
consumed. -/
structure TranscribeRun where
  result : Except TranscribeError Transcript
  sleeps : List ℚ
  attempts : Nat

/-- Sleep performed after a retriable attempt: `min(wait, 60)` with the
20 s default for a 503 (lines 71-77), a fixed 5 s otherwise (line 90). -/
def sleepOf : WhisperAttempt → ℚ
  | .unavailable est => min (est.getD 20) 60
  | .transportFault => 5
  | _ => 0

/-- Does this attempt outcome lead to another loop iteration? -/
def retriable : WhisperAttempt → Bool
  | .unavailable _ => true
  | .transportFault => true
  | _ => false

/-- ai_service.py lines 64-92: the `for attempt in range(5)` retry loop.
`fuel` counts the remaining attempts, `used` the consumed ones, `sl` the
sleeps so far (reversed). -/
def transcribeGo (f : Nat → WhisperAttempt) : Nat → Nat → List ℚ → TranscribeRun
  | 0, used, sl => ⟨.error .exhausted, sl.reverse, used⟩
  | fuel + 1, used, sl =>
    match f used with
    | .unavailable est =>
        transcribeGo f fuel (used + 1) (min (est.getD 20) 60 :: sl)
    | .httpError => ⟨.error .failed, sl.reverse, used + 1⟩
    | .transportFault => transcribeGo f fuel (used + 1) ((5 : ℚ) :: sl)
    | .success t => ⟨.ok ⟨pyStrip t, "auto".toList⟩, sl.reverse, used + 1⟩

/-- ai_service.py lines 52-95, `transcribe_audio`: five attempts against
the whisper endpoint, where `f i` is the outcome of attempt `i`. -/
def transcribe_audio (f : Nat → WhisperAttempt) : TranscribeRun :=
  transcribeGo f 5 0 []

/-- PipelineResult: the dict assembled at ai_service.py lines 328-334 and
356-362. -/
structure PipelineResult where
  transcription_text : List Char
  sentiment_label : List Char
  sentiment_score : ℚ
  ai_feedback : List Char
  language : List Char
deriving DecidableEq

/-- ai_service.py lines 328-334: the fixed unintelligible-audio result. -/
def shortCircuitResult : PipelineResult :=
  ⟨"Ses kaydı anlaşılamadı.".toList, "neutral".toList, 1/2,
   "Ses kalitesi düşük olduğu için analiz yapılamadı. Lütfen daha net kayıt yapın.".toList,
   "unknown".toList⟩

/-- The external-world behaviors one pipeline run can encounter: the
whisper attempt outcomes, the abstract `math.sqrt`, the ffmpeg outcome,
the sentiment chat outcome and response parse, and the feedback chat
outcome. -/
structure PipelineEnv where
  whisper : Nat → WhisperAttempt
  sqrtFn : ℚ → ℚ
  ffmpeg : FFmpegOutcome
  sentChat : ChatOutcome
  sentParse : List Char → ParseOutcome
  fbChat : Option (List Char)

/-- ai_service.py lines 316-365, `process_audio_full`: transcription
(whose raised errors the orchestrator re-raises, line 365), the
minimum-transcript short-circuit (lines 327-334), then acoustic analysis,
sentiment fusion and feedback generation, each total. -/
def process_audio_full (env : PipelineEnv) : Except TranscribeError PipelineResult :=
  match (transcribe_audio env.whisper).result with
  | .error e => .error e
  | .ok tr =>
    if tr.text = [] ∨ (pyStrip tr.text).length < 5 then .ok shortCircuitResult
    else
      let audio := analyze_audio_features env.sqrtFn env.ffmpeg
      let sent := analyze_sentiment tr.text audio.description env.sentChat env.sentParse
      let fb := generate_feedback env.fbChat tr.text sent.label
      .ok ⟨tr.text, sent.label, sent.score, fb, tr.language⟩

/-- Every normalized sentiment has an in-enum label and a score in [0,1]. -/
theorem normalizeParsed_valid (o : ParseOutcome) :
    ((normalizeParsed o).label = "positive".toList
      ∨ (normalizeParsed o).label = "negative".toList
      ∨ (normalizeParsed o).label = "neutral".toList)
    ∧ 0 ≤ (normalizeParsed o).score ∧ (normalizeParsed o).score ≤ 1 := by
  cases o with
  | fail =>
    refine ⟨Or.inr (Or.inr rfl), by norm_num [normalizeParsed],
      by norm_num [normalizeParsed]⟩
  | ok lbl sc =>
    constructor
    · simp only [normalizeParsed]
      split
      · assumption
      · exact Or.inr (Or.inr rfl)
    · constructor
      · exact le_max_left 0 _
      · exact max_le (by norm_num) (min_le_left 1 _)

/-- C3: sentiment analysis is total and always yields a valid
SentimentResult — the label lies in the three-value enum and the score in
[0,1] for every reasoning-service behavior; a raised chat call or a
failed parse yields exactly the neutral/0.5 default; a parseable response
has its label lower-cased/stripped with out-of-enum labels coerced to
neutral (POSITIVE with score 1.7 gives positive/1.0, angry stays
neutral), and its score clamped to [0,1]. -/
theorem c3_sentiment_total_and_valid :
    (∀ text cues chat parse,
       ((analyze_sentiment text cues chat parse).label = "positive".toList
         ∨ (analyze_sentiment text cues chat parse).label = "negative".toList
         ∨ (analyze_sentiment text cues chat parse).label = "neutral".toList)
       ∧ 0 ≤ (analyze_sentiment text cues chat parse).score
       ∧ (analyze_sentiment text cues chat parse).score ≤ 1)
    ∧ (∀ text cues parse,
        analyze_sentiment text cues .exc parse = ⟨"neutral".toList, 1/2⟩)
    ∧ (∀ text cues content parse, parse (stripFence (pyStrip content)) = .fail →
        analyze_sentiment text cues (.ok content) parse = ⟨"neutral".toList, 1/2⟩)
    ∧ normalizeParsed (.ok (some "POSITIVE".toList) (some (17/10)))
        = ⟨"positive".toList, 1⟩
    ∧ normalizeParsed (.ok (some "angry".toList) (some (3/10)))
        = ⟨"neutral".toList, 3/10⟩
    ∧ (∀ lbl sc, (normalizeParsed (.ok lbl sc)).score
        = max 0 (min 1 (sc.getD (1/2)))) := by
  refine ⟨fun text cues chat parse => ?_, fun _ _ _ => rfl,
    fun text cues content parse h => ?_, ?_, ?_, fun lbl sc => rfl⟩
  · cases chat with
    | exc => exact ⟨Or.inr (Or.inr rfl), by norm_num [analyze_sentiment],
        by norm_num [analyze_sentiment]⟩
    | ok content => exact normalizeParsed_valid _
  · simp only [analyze_sentiment, h, normalizeParsed]
  · have hl : pyStrip (pyLower ((some "POSITIVE".toList).getD "neutral".toList))
        = "positive".toList := by decide
    simp only [normalizeParsed, hl]
    rw [if_pos (Or.inl trivial)]
    congr 1
    simp only [Option.getD_some]
    rw [min_eq_left (by norm_num), max_eq_right (by norm_num)]
  · have hl : pyStrip (pyLower ((some "angry".toList).getD "neutral".toList))
        = "angry".toList := by decide
    simp only [normalizeParsed, hl]
    rw [if_neg (by decide)]
    congr 1
    simp only [Option.getD_some]
    rw [min_eq_right (by norm_num), max_eq_right (by norm_num)]

/-- Witness for C3: a concrete failing parse resolves to the default. -/
theorem c3_witness :
    analyze_sentiment "bugün".toList [] (.ok "oops".toList) (fun _ => .fail)
      = ⟨"neutral".toList, 1/2⟩ :=
  c3_sentiment_total_and_valid.2.2.1 "bugün".toList [] "oops".toList
    (fun _ => .fail) rfl

/-- C5: feedback generation never propagates an error — whenever the
reasoning-service call raises, `generate_feedback` returns the canned
fallback string keyed by the sentiment label, with the neutral fallback
for any label outside the three-value enum. -/
theorem c5_feedback_fallback :
    (∀ t s, s ≠ "positive".toList → s ≠ "negative".toList → s ≠ "neutral".toList →
       generate_feedback none t s = fbNeutral)
    ∧ (∀ t, generate_feedback none t "positive".toList = fbPositive)
    ∧ (∀ t, generate_feedback none t "negative".toList = fbNegative)
    ∧ (∀ t, generate_feedback none t "neutral".toList = fbNeutral) := by
  refine ⟨fun t s h1 h2 _ => ?_, fun t => rfl, fun t => ?_, fun t => ?_⟩
  · simp only [generate_feedback, fallbackFeedback, if_neg h1, if_neg h2]
  · simp [generate_feedback, fallbackFeedback]
  · simp [generate_feedback, fallbackFeedback]

/-- Witness for C5: an out-of-enum label gets the neutral fallback. -/
theorem c5_witness :
    generate_feedback none "kayıt".toList "angry".toList = fbNeutral :=
  c5_feedback_fallback.1 "kayıt".toList "angry".toList
    (by decide) (by decide) (by decide)

/-- Counterexample for C8: for the out-of-enum label `angry` the tone
phrase used in the feedback request is the dict-get default `düşünceli`,
which is NOT the phrase assigned to neutral (`sakin ve düşünceli`); the
claim that unrecognized labels use the neutral phrase is false. -/
theorem c8_counterexample :
    sentiment_tr "angry".toList ≠ sentiment_tr "neutral".toList
    ∧ sentiment_tr "angry".toList = "düşünceli".toList
    ∧ feedbackUserContent "kayıt".toList "angry".toList
        ≠ feedbackUserContent "kayıt".toList "neutral".toList := by
  refine ⟨by decide, by decide, ?_⟩
  simp only [feedbackUserContent]
  intro h
  exact absurd (List.append_cancel_left h) (by decide)

/-- C8 (amended): the tone-phrase table maps the three enum labels to
their fixed phrases, and every label outside the enum maps to the fixed
default phrase `düşünceli` — a phrase distinct from the neutral entry —
which is then interpolated into the feedback request. -/
theorem c8_tone_phrase_amended :
    sentiment_tr "positive".toList = "mutlu ve pozitif".toList
    ∧ sentiment_tr "negative".toList = "üzgün veya sıkıntılı".toList
    ∧ sentiment_tr "neutral".toList = "sakin ve düşünceli".toList
    ∧ (∀ s, s ≠ "positive".toList → s ≠ "negative".toList → s ≠ "neutral".toList →
        sentiment_tr s = "düşünceli".toList
        ∧ ∀ t, feedbackUserContent t s
            = "Kullanıcının söylediği: \"".toList ++ t.take 500
              ++ "\"\nDuygu durumu: ".toList ++ "düşünceli".toList) := by
  refine ⟨by decide, by decide, by decide, fun s h1 h2 h3 => ?_⟩
  have hs : sentiment_tr s = "düşünceli".toList := by
    simp only [sentiment_tr, if_neg h1, if_neg h2, if_neg h3]
  exact ⟨hs, fun t => by simp only [feedbackUserContent, hs]⟩

/-- Witness for C8 (amended) at the concrete label `angry`. -/
theorem c8_witness :
    sentiment_tr "angry".toList = "düşünceli".toList :=
  (c8_tone_phrase_amended.2.2.2 "angry".toList
    (by decide) (by decide) (by decide)).1

/-- The full-analysis energy level is one of high/medium/low, never
`unknown`. -/
theorem levelOf_ne_unknown (r : ℚ) : levelOf r ≠ "unknown".toList := by
  unfold levelOf
  split
  · decide
  · split
    · decide
    · decide

/-- C6: acoustic feature extraction never raises past its boundary — a
raised decode, a failed unpack, or a stdout under 200 bytes (100 samples)
each yield a fixed degraded feature set with `energy_level = unknown`,
and the numeric edge cases (no valid segment, non-positive mean segment
energy) define the coefficient of variation as 0 rather than a division
error. -/
theorem c6_acoustic_never_raises :
    (∀ sq, analyze_audio_features sq .exc = degradedExc)
    ∧ (∀ sq (rc : Int) out, out.length < 200 →
        analyze_audio_features sq (.run rc out) = degradedShort)
    ∧ (∀ sq (rc : Int) out, ¬ out.length < 200 → decodeSamples out = none →
        analyze_audio_features sq (.run rc out) = degradedExc)
    ∧ degradedShort.energy_level = "unknown".toList
    ∧ degradedExc.energy_level = "unknown".toList
    ∧ (∀ sq samples, segmentEnergies sq samples = [] → energyCv sq samples = 0)
    ∧ (∀ sq samples, meanEnergy sq samples ≤ 0 → energyCv sq samples = 0) := by
  refine ⟨fun _ => rfl, fun sq rc out h => ?_, fun sq rc out h1 h2 => ?_,
    rfl, rfl, fun sq samples h => ?_, fun sq samples h => ?_⟩
  · simp only [analyze_audio_features, if_pos h]
  · simp only [analyze_audio_features, if_neg h1, h2]
  · simp only [energyCv, if_pos h]
  · simp only [energyCv]
    by_cases he : segmentEnergies sq samples = []
    · rw [if_pos he]
    · rw [if_neg he, if_neg (not_lt.mpr h)]

/-- Witness for C6: a two-byte stdout yields the short-buffer degraded
result. -/
theorem c6_witness :
    analyze_audio_features (fun q => q) (.run 0 [0, 0]) = degradedShort :=
  c6_acoustic_never_raises.2.1 (fun q => q) 0 [0, 0] (by decide)

/-- C10: the decoder run is judged only by its stdout and by raised
exceptions — the exit status is never inspected (the result is invariant
under changing it), under-200-byte stdout is degraded, a raised call is
degraded, and any stdout of at least 200 bytes that unpacks is analyzed
normally (its energy level is never `unknown`). -/
theorem c10_exit_status_ignored (sq : ℚ → ℚ) (out : List Nat) :
    (∀ rc rcq : Int,
       analyze_audio_features sq (.run rc out) = analyze_audio_features sq (.run rcq out))
    ∧ (∀ rc : Int, out.length < 200 →
        analyze_audio_features sq (.run rc out) = degradedShort)
    ∧ analyze_audio_features sq .exc = degradedExc
    ∧ (∀ (rc : Int) samples, ¬ out.length < 200 → decodeSamples out = some samples →
        analyze_audio_features sq (.run rc out) = fullFeatures sq samples
        ∧ (analyze_audio_features sq (.run rc out)).energy_level ≠ "unknown".toList) := by
  refine ⟨fun rc rcq => rfl, fun rc h => ?_, rfl, fun rc samples h1 h2 => ?_⟩
  · simp only [analyze_audio_features, if_pos h]
  · have hfull : analyze_audio_features sq (.run rc out) = fullFeatures sq samples := by
      simp only [analyze_audio_features, if_neg h1, h2]
    refine ⟨hfull, ?_⟩
    rw [hfull]
    exact levelOf_ne_unknown _

/-- Witness for C10: the result on a concrete 200-byte stdout is
invariant under the exit status. -/
theorem c10_witness :
    analyze_audio_features (fun q => q) (.run 0 (List.replicate 200 0))
      = analyze_audio_features (fun q => q) (.run 1 (List.replicate 200 0)) :=
  (c10_exit_status_ignored (fun q => q) (List.replicate 200 0)).1 0 1

/-- A 100-sample buffer alternating between +1 and -1, presented as the
little-endian signed 16-bit byte stream ffmpeg would emit. -/
def altBytes : List Nat :=
  (List.range 100).flatMap (fun i => if i % 2 = 0 then [1, 0] else [255, 255])

/-- The decoded alternating sample buffer. -/
def altSamples : List Int := decodePairs altBytes

/-- Counterexample for C7: the code divides the sign-change count by `n`,
not `n - 1` — the alternating 100-sample buffer has 99 sign changes and
yields a zero-crossing rate of 99/100, not 99/(100-1) = 1.0 as the claim
requires. -/
theorem c7_counterexample :
    (analyze_audio_features (fun _ => 0) (.run 0 altBytes)).zcr = some ((99 : ℚ)/100)
    ∧ ((99 : ℚ)/100) ≠ ((99 : ℚ)/(100 - 1)) := by
  constructor
  · have h2 : decodeSamples altBytes = some altSamples := by decide
    have h1 : ¬ altBytes.length < 200 := by decide
    have hz : (analyze_audio_features (fun _ => 0) (.run 0 altBytes)).zcr
        = some ((countCrossings altSamples : ℚ) / (altSamples.length : ℚ)) := by
      simp only [analyze_audio_features, h2, if_neg h1]
      rfl
    rw [hz, show countCrossings altSamples = 99 from by decide,
        show altSamples.length = 100 from by decide]
    congr 1
  · norm_num

/-- C7 (amended): for every decoded buffer reaching full analysis the
zero-crossing rate equals the number of adjacent-sample pairs whose signs
differ divided by the total sample count `n` (not `n - 1`); the
alternating buffer therefore yields (n-1)/n. -/
theorem c7_zcr_amended (sq : ℚ → ℚ) (rc : Int) (out : List Nat) (samples : List Int)
    (h1 : ¬ out.length < 200) (h2 : decodeSamples out = some samples) :
    (analyze_audio_features sq (.run rc out)).zcr
      = some ((countCrossings samples : ℚ) / (samples.length : ℚ)) := by
  simp only [analyze_audio_features, h2, if_neg h1]
  rfl

/-- Witness for C7 (amended) at the concrete alternating buffer. -/
theorem c7_witness :
    (analyze_audio_features (fun _ => 0) (.run 0 altBytes)).zcr
      = some ((countCrossings altSamples : ℚ) / (altSamples.length : ℚ)) :=
  c7_zcr_amended (fun _ => 0) 0 altBytes altSamples (by decide) (by decide)

/-- One-step unfolding of the retry loop. -/
theorem transcribeGo_succ (f : Nat → WhisperAttempt) (fuel used : Nat) (sl : List ℚ) :
    transcribeGo f (fuel + 1) used sl =
      match f used with
      | .unavailable est => transcribeGo f fuel (used + 1) (min (est.getD 20) 60 :: sl)
      | .httpError => ⟨.error .failed, sl.reverse, used + 1⟩
      | .transportFault => transcribeGo f fuel (used + 1) ((5 : ℚ) :: sl)
      | .success t => ⟨.ok ⟨pyStrip t, "auto".toList⟩, sl.reverse, used + 1⟩ := rfl

/-- The loop can consume at most its fuel. -/
theorem transcribeGo_attempts_le (f : Nat → WhisperAttempt) :
    ∀ fuel used sl, (transcribeGo f fuel used sl).attempts ≤ used + fuel := by
  intro fuel
  induction fuel with
  | zero => intro used sl; simp [transcribeGo]
  | succ n ih =>
    intro used sl
    rw [transcribeGo_succ]
    cases h : f used with
    | unavailable est =>
      have := ih (used + 1) (min (est.getD 20) 60 :: sl)
      simpa using this.trans (by omega)
    | httpError => simp
    | transportFault =>
      have := ih (used + 1) ((5 : ℚ) :: sl)
      simpa using this.trans (by omega)
    | success t => simp

/-- Prepending one element to a reversed range-map. -/
theorem range_reverse_map_succ {α : Type} (g : ℕ → α) (n : ℕ) (sl : List α) :
    (List.range n).reverse.map (fun j => g (j + 1)) ++ (g 0 :: sl)
      = (List.range (n + 1)).reverse.map g ++ sl := by
  rw [List.range_succ_eq_map, List.reverse_cons, List.map_append]
  rw [List.map_reverse, List.map_reverse, List.map_map]
  simp [Function.comp_def, Nat.succ_eq_add_one, List.append_assoc]

/-- Skipping `k` retriable attempts from the front of the loop. -/
theorem transcribeGo_skip (f : Nat → WhisperAttempt) :
    ∀ k fuel used sl, k ≤ fuel → (∀ j, j < k → retriable (f (used + j)) = true) →
      transcribeGo f fuel used sl
        = transcribeGo f (fuel - k) (used + k)
            (((List.range k).reverse.map (fun j => sleepOf (f (used + j)))) ++ sl) := by
  intro k
  induction k with
  | zero => intro fuel used sl _ _; simp
  | succ n ih =>
    intro fuel used sl hle hr
    cases fuel with
    | zero => omega
    | succ m =>
      have h0 : retriable (f used) = true := by
        simpa using hr 0 (Nat.succ_pos n)
      have hstep : transcribeGo f (m + 1) used sl
          = transcribeGo f m (used + 1) (sleepOf (f used) :: sl) := by
        rw [transcribeGo_succ]
        cases hfu : f used with
        | unavailable est => simp [sleepOf, hfu]
        | httpError => rw [hfu] at h0; simp [retriable] at h0
        | transportFault => simp [sleepOf, hfu]
        | success t => rw [hfu] at h0; simp [retriable] at h0
      have hr1 : ∀ j, j < n → retriable (f (used + 1 + j)) = true := by
        intro j hj
        have := hr (j + 1) (by omega)
        have e : used + (j + 1) = used + 1 + j := by omega
        rwa [e] at this
      rw [hstep, ih m (used + 1) (sleepOf (f used) :: sl) (by omega) hr1]
      have e1 : m - n = (m + 1) - (n + 1) := by omega
      have e2 : used + 1 + n = used + (n + 1) := by omega
      rw [e1, e2]
      congr 1
      rw [show (fun j => sleepOf (f (used + 1 + j)))
            = (fun j => sleepOf (f (used + (j + 1)))) from
          funext fun j => by rw [Nat.add_assoc, Nat.add_comm 1 j]]
      exact range_reverse_map_succ (fun j => sleepOf (f (used + j))) n sl

/-- C2: the transcription client makes at most 5 attempts; while every
earlier attempt was retriable, a definitive HTTP error at attempt `k`
aborts immediately as a transcription-failed error after `k + 1` attempts
with no further sleeps, a success at attempt `k` returns the (stripped)
text, and five retriable attempts exhaust the loop into a
transcription-exhausted error; a transient-unavailable response sleeps
the server-suggested wait (default 20 s) capped at 60 s, and any other
transport fault sleeps a fixed 5 s. -/
theorem c2_transcription_retry_policy (f : Nat → WhisperAttempt) :
    (transcribe_audio f).attempts ≤ 5
    ∧ (∀ k, k < 5 → (∀ j, j < k → retriable (f j) = true) →
        (f k = .httpError →
          transcribe_audio f
            = ⟨.error .failed, (List.range k).map (fun j => sleepOf (f j)), k + 1⟩)
        ∧ (∀ t, f k = .success t →
          transcribe_audio f
            = ⟨.ok ⟨pyStrip t, "auto".toList⟩,
               (List.range k).map (fun j => sleepOf (f j)), k + 1⟩))
    ∧ ((∀ j, j < 5 → retriable (f j) = true) →
        transcribe_audio f
          = ⟨.error .exhausted, (List.range 5).map (fun j => sleepOf (f j)), 5⟩)
    ∧ (∀ est, sleepOf (.unavailable est) = min (est.getD 20) 60)
    ∧ (∀ est, sleepOf (.unavailable est) ≤ 60)
    ∧ sleepOf (.unavailable none) = 20
    ∧ sleepOf .transportFault = 5 := by
  have hskip : ∀ k, k ≤ 5 → (∀ j, j < k → retriable (f j) = true) →
      transcribe_audio f
        = transcribeGo f (5 - k) k
            ((List.range k).reverse.map (fun j => sleepOf (f j))) := by
    intro k hk hr
    have hr0 : ∀ j, j < k → retriable (f (0 + j)) = true := by
      intro j hj; rw [Nat.zero_add]; exact hr j hj
    have := transcribeGo_skip f k 5 0 [] hk hr0
    rw [transcribe_audio, this]
    simp only [Nat.zero_add, List.append_nil]
  refine ⟨?_, fun k hk hr => ⟨fun hhttp => ?_, fun t hsucc => ?_⟩, fun hr => ?_,
    fun est => rfl, fun est => min_le_right _ _, ?_, rfl⟩
  · have := transcribeGo_attempts_le f 5 0 []
    simpa [transcribe_audio] using this
  · rw [hskip k (by omega) hr, show 5 - k = (4 - k) + 1 from by omega,
        transcribeGo_succ, hhttp]
    simp [List.map_reverse]
  · rw [hskip k (by omega) hr, show 5 - k = (4 - k) + 1 from by omega,
        transcribeGo_succ, hsucc]
    simp [List.map_reverse]
  · rw [hskip 5 (by omega) hr]
    simp [transcribeGo, List.map_reverse]
  · show min ((none : Option ℚ).getD 20) 60 = 20
    rw [Option.getD_none, min_eq_left (by norm_num)]

/-- Witness for C2: four transient-unavailable responses followed by a
success return the stripped transcript after four capped 20 s sleeps and
five attempts. -/
theorem c2_witness :
    transcribe_audio
        (fun i => if i < 4 then .unavailable none else .success " merhaba ".toList)
      = ⟨.ok ⟨"merhaba".toList, "auto".toList⟩, [20, 20, 20, 20], 5⟩ := by
  have h := ((c2_transcription_retry_policy
      (fun i => if i < 4 then .unavailable none else .success " merhaba ".toList)).2.1
      4 (by omega) (fun j hj => by interval_cases j <;> rfl)).2
      " merhaba ".toList (by norm_num)
  rw [h]
  have hs : pyStrip " merhaba ".toList = "merhaba".toList := by decide
  rw [hs]
  congr 1

/-- C1: for every environment in which transcription returns a result,
the full pipeline returns a result without raising (acoustic analysis,
sentiment fusion and feedback generation are total), and a raised
transcription error is the only failure the orchestrator propagates. -/
theorem c1_only_transcription_failure_escapes (env : PipelineEnv) :
    (∀ tr, (transcribe_audio env.whisper).result = .ok tr →
       ∃ r, process_audio_full env = .ok r)
    ∧ (∀ e, (transcribe_audio env.whisper).result = .error e →
       process_audio_full env = .error e) := by
  constructor
  · intro tr htr
    unfold process_audio_full
    rw [htr]
    dsimp only
    split
    · exact ⟨_, rfl⟩
    · exact ⟨_, rfl⟩
  · intro e he
    unfold process_audio_full
    rw [he]

/-- Witness for C1: a run whose every non-transcription stage fails still
returns a result. -/
theorem c1_witness :
    ∃ r, process_audio_full
        ⟨fun _ => .success "bugün çok mutluyum".toList, fun q => q, .exc, .exc,
         fun _ => .fail, none⟩ = .ok r :=
  (c1_only_transcription_failure_escapes _).1
    ⟨"bugün çok mutluyum".toList, "auto".toList⟩ rfl

/-- C4: whenever the transcript text strips to fewer than 5 characters,
the pipeline short-circuits to the fixed unintelligible-audio result —
independent of the acoustic, sentiment and feedback behaviors, which are
never consulted. -/
theorem c4_short_transcript_short_circuit (env : PipelineEnv) (tr : Transcript)
    (htr : (transcribe_audio env.whisper).result = .ok tr)
    (hshort : (pyStrip tr.text).length < 5) :
    process_audio_full env = .ok shortCircuitResult := by
  unfold process_audio_full
  rw [htr]
  dsimp only
  rw [if_pos (Or.inr hshort)]

/-- Witness for C4: a 2-character transcript short-circuits. -/
theorem c4_witness :
    process_audio_full
        ⟨fun _ => .success "iyi".toList, fun q => q, .exc, .exc,
         fun _ => .fail, none⟩ = .ok shortCircuitResult :=
  c4_short_transcript_short_circuit _ ⟨"iyi".toList, "auto".toList⟩ rfl (by decide)

/-- A head that is not a backquote cannot start the delimiter. -/
theorem hasFence_cons_ne (c : Char) (l : List Char) (h : (c == bq) = false) :
    hasFence (c :: l) = hasFence l := by
  match l with
  | [] => simp [hasFence, fenceAt]
  | [x] => simp [hasFence, fenceAt]
  | x :: y :: r => simp [hasFence, fenceAt, h]

/-- Fence-freeness is inherited by the tail. -/
theorem hasFence_tail (c : Char) (l : List Char) (h : hasFence (c :: l) = false) :
    hasFence l = false := by
  have h2 : (fenceAt (c :: l) || hasFence l) = false := h
  exact (Bool.or_eq_false_iff.mp h2).2

/-- A fence-free list has no delimiter at its head either. -/
theorem fenceAt_false (l : List Char) (h : hasFence l = false) : fenceAt l = false := by
  cases l with
  | nil => rfl
  | cons c t =>
    have h2 : (fenceAt (c :: t) || hasFence t) = false := h
    exact (Bool.or_eq_false_iff.mp h2).1

/-- `fenceAt` characterized as an explicit three-backquote head. -/
theorem fenceAt_iff (m : List Char) :
    fenceAt m = true ↔ ∃ r, m = bq :: bq :: bq :: r := by
  match m with
  | [] => simp [fenceAt]
  | [a] => simp [fenceAt]
  | [a, b] => simp [fenceAt]
  | a :: b :: c :: r =>
    simp only [fenceAt, Bool.and_eq_true, beq_iff_eq, List.cons.injEq]
    constructor
    · rintro ⟨⟨rfl, rfl⟩, rfl⟩; exact ⟨r, rfl, rfl, rfl, rfl⟩
    · rintro ⟨r2, rfl, rfl, rfl, rfl⟩; exact ⟨⟨rfl, rfl⟩, rfl⟩

/-- `hasFence` characterized as a delimiter occurrence. -/
theorem hasFence_iff (l : List Char) :
    hasFence l = true ↔ ∃ a b, l = a ++ fenceSeq ++ b := by
  induction l with
  | nil =>
    simp [hasFence, fenceSeq]
  | cons c t ih =>
    rw [show hasFence (c :: t) = (fenceAt (c :: t) || hasFence t) from rfl,
      Bool.or_eq_true, ih, fenceAt_iff]
    constructor
    · rintro (⟨r, hr⟩ | ⟨a, b, hab⟩)
      · exact ⟨[], r, by simp [fenceSeq, hr]⟩
      · exact ⟨c :: a, b, by simp [hab]⟩
    · rintro ⟨a, b, hab⟩
      cases a with
      | nil =>
        left
        refine ⟨b, ?_⟩
        simpa [fenceSeq] using hab
      | cons a0 a2 =>
        right
        refine ⟨a2, b, ?_⟩
        have h2 : c :: t = a0 :: (a2 ++ fenceSeq ++ b) := by simpa using hab
        exact (List.cons.injEq _ _ _ _ ▸ h2).2

/-- One direction of reversal invariance. -/
theorem hasFence_reverse_mp (l : List Char) (h : hasFence l = true) :
    hasFence l.reverse = true := by
  obtain ⟨a, b, rfl⟩ := (hasFence_iff l).mp h
  apply (hasFence_iff _).mpr
  refine ⟨b.reverse, a.reverse, ?_⟩
  simp [fenceSeq, List.reverse_append, List.append_assoc]

/-- The three-backquote delimiter is a palindrome, so fence occurrence is
invariant under list reversal. -/
theorem hasFence_reverse (l : List Char) : hasFence l.reverse = hasFence l := by
  cases hl : hasFence l with
  | true => exact hasFence_reverse_mp l hl
  | false =>
    cases hr : hasFence l.reverse with
    | false => rfl
    | true =>
      have h2 := hasFence_reverse_mp l.reverse hr
      rw [List.reverse_reverse] at h2
      rw [h2] at hl
      exact hl

/-- Dropping a prefix preserves fence-freeness. -/
theorem hasFence_dropWhile (p : Char → Bool) (l : List Char)
    (h : hasFence l = false) : hasFence (l.dropWhile p) = false := by
  induction l with
  | nil => simpa using h
  | cons c t ih =>
    rw [List.dropWhile_cons]
    split
    · exact ih (hasFence_tail c t h)
    · exact h

/-- Stripping whitespace preserves fence-freeness. -/
theorem hasFence_pyStrip (l : List Char) (h : hasFence l = false) :
    hasFence (pyStrip l) = false := by
  have h1 : hasFence (l.dropWhile isSpaceChar) = false := hasFence_dropWhile _ l h
  have h2 : hasFence (l.dropWhile isSpaceChar).reverse = false := by
    rw [hasFence_reverse]; exact h1
  have h3 : hasFence ((l.dropWhile isSpaceChar).reverse.dropWhile isSpaceChar)
      = false := hasFence_dropWhile _ _ h2
  unfold pyStrip
  rw [hasFence_reverse]
  exact h3

/-- Stripping ignores a leading whitespace character. -/
theorem pyStrip_cons_space (c : Char) (l : List Char) (h : isSpaceChar c = true) :
    pyStrip (c :: l) = pyStrip l := by
  unfold pyStrip
  rw [List.dropWhile_cons, if_pos h]

/-- Stripping ignores a trailing whitespace character. -/
theorem pyStrip_append_space (c : Char) (l : List Char) (h : isSpaceChar c = true) :
    pyStrip (l ++ [c]) = pyStrip l := by
  unfold pyStrip
  rw [List.dropWhile_append]
  split
  · next hemp =>
    have hc : List.dropWhile isSpaceChar [c] = [] := by
      rw [List.dropWhile_cons, if_pos h]; rfl
    have hl : List.dropWhile isSpaceChar l = [] := by
      simpa [List.isEmpty_iff] using hemp
    rw [hc, hl]
  · next hemp =>
    rw [List.reverse_append, List.reverse_singleton, List.singleton_append,
      List.dropWhile_cons, if_pos h]

/-- A list beginning and ending with a backquote strips to itself. -/
theorem pyStrip_bq_ends (x : List Char) :
    pyStrip (bq :: (x ++ [bq])) = bq :: (x ++ [bq]) := by
  have hbq : isSpaceChar bq = false := by decide
  unfold pyStrip
  rw [List.dropWhile_cons, if_neg (by simp [hbq])]
  rw [List.reverse_cons, List.reverse_append, List.reverse_singleton,
    List.singleton_append, List.cons_append]
  rw [List.dropWhile_cons, if_neg (by simp [hbq])]
  simp [List.reverse_append, List.append_assoc]

/-- `fenceAt` on a nonempty list only inspects the first three characters. -/
theorem fenceAt_take2 (c : Char) (m t : List Char) :
    fenceAt ((c :: m) ++ t) = fenceAt ((c :: m) ++ t.take 2) := by
  match m with
  | [] =>
    match t with
    | [] => rfl
    | [x] => rfl
    | x :: y :: r => rfl
  | [a] =>
    match t with
    | [] => rfl
    | x :: r => rfl
  | a :: b :: r => rfl

/-- The splitter scans across a block that starts no delimiter, moving it
into the accumulator. -/
theorem pySplitGo_shift : ∀ m t acc : List Char,
    hasFence (m ++ t.take 2) = false →
    pySplitGo (m ++ t) acc = pySplitGo t (m.reverse ++ acc) := by
  intro m
  induction m with
  | nil => intro t acc _; simp
  | cons c m ih =>
    intro t acc h
    have hfa : fenceAt ((c :: m) ++ t.take 2) = false := fenceAt_false _ h
    have hfa2 : fenceAt (c :: (m ++ t)) = false := by
      have := (fenceAt_take2 c m t).symm ▸ hfa
      simpa using this
    rw [show (c :: m) ++ t = c :: (m ++ t) from rfl, pySplitGo_cons, hfa2]
    simp only [Bool.false_eq_true, if_false]
    have h2 : hasFence (m ++ t.take 2) = false := hasFence_tail c _ h
    rw [ih t (c :: acc) h2]
    congr 1
    simp [List.append_assoc]

/-- The splitter consumes a leading delimiter, emitting the piece. -/
theorem pySplitGo_fence (r acc : List Char) :
    pySplitGo (bq :: bq :: bq :: r) acc = acc.reverse :: pySplitGo r [] := by
  simp [pySplitGo]

/-- Splitting a text of the exact shape delimiter-middle-delimiter, where
the middle starts no delimiter even against the closing one, yields the
three pieces empty/middle/empty. -/
theorem pySplit_three (m : List Char) (h : hasFence (m ++ [bq, bq]) = false) :
    pySplit (fenceSeq ++ m ++ fenceSeq) = [[], m, []] := by
  unfold pySplit
  rw [show fenceSeq ++ m ++ fenceSeq = bq :: bq :: bq :: (m ++ fenceSeq) from by
    simp [fenceSeq]]
  rw [pySplitGo_fence]
  rw [pySplitGo_shift m fenceSeq [] h]
  rw [show fenceSeq = bq :: bq :: bq :: ([] : List Char) from rfl, pySplitGo_fence]
  simp [pySplitGo]

/-- Inserting a newline blocks delimiter formation across the junction. -/
theorem fenceAt_cons_append_nl (c : Char) (s t : List Char) :
    fenceAt (c :: (s ++ '\n' :: t)) = fenceAt (c :: s) := by
  have hnl : ('\n' == bq) = false := by decide
  match s with
  | [] =>
    match t with
    | [] => simp [fenceAt, hnl]
    | x :: r => simp [fenceAt, hnl]
  | [a] => simp [fenceAt, hnl]
  | a :: b :: r => rfl

/-- Fence occurrence distributes over a newline-separated append. -/
theorem hasFence_append_nl (s t : List Char) :
    hasFence (s ++ '\n' :: t) = (hasFence s || hasFence ('\n' :: t)) := by
  induction s with
  | nil =>
    rw [List.nil_append, show hasFence ([] : List Char) = false from rfl,
      Bool.false_or]
  | cons c s ih =>
    rw [show (c :: s) ++ '\n' :: t = c :: (s ++ '\n' :: t) from rfl]
    rw [show hasFence (c :: (s ++ '\n' :: t))
        = (fenceAt (c :: (s ++ '\n' :: t)) || hasFence (s ++ '\n' :: t)) from rfl]
    rw [fenceAt_cons_append_nl, ih]
    rw [show hasFence (c :: s) = (fenceAt (c :: s) || hasFence s) from rfl]
    rw [Bool.or_assoc]

/-- The middle of a fenced block with the `json` language tag: the tag, a
newline, the wrapped object text, a closing newline. -/
def midTag (s : List Char) : List Char :=
  'j' :: 's' :: 'o' :: 'n' :: '\n' :: (s ++ ['\n'])

/-- The middle of a fenced block without a language tag. -/
def midBare (s : List Char) : List Char := '\n' :: (s ++ ['\n'])

/-- A response text wrapped in a fenced code block with the `json` tag. -/
def wrapTag (s : List Char) : List Char := fenceSeq ++ midTag s ++ fenceSeq

/-- A response text wrapped in a bare fenced code block. -/
def wrapBare (s : List Char) : List Char := fenceSeq ++ midBare s ++ fenceSeq

/-- The tagged middle starts no delimiter anywhere, even against the two
leading backquotes of the closing fence. -/
theorem hasFence_midTag (s : List Char) (h : hasFence s = false) :
    hasFence (midTag s ++ [bq, bq]) = false := by
  unfold midTag
  rw [show ('j' :: 's' :: 'o' :: 'n' :: '\n' :: (s ++ ['\n'])) ++ [bq, bq]
      = 'j' :: 's' :: 'o' :: 'n' :: '\n' :: (s ++ '\n' :: [bq, bq]) from by simp]
  rw [hasFence_cons_ne _ _ (by decide), hasFence_cons_ne _ _ (by decide),
    hasFence_cons_ne _ _ (by decide), hasFence_cons_ne _ _ (by decide),
    hasFence_cons_ne _ _ (by decide)]
  rw [hasFence_append_nl, h]
  decide

/-- The bare middle starts no delimiter anywhere either. -/
theorem hasFence_midBare (s : List Char) (h : hasFence s = false) :
    hasFence (midBare s ++ [bq, bq]) = false := by
  unfold midBare
  rw [show ('\n' :: (s ++ ['\n'])) ++ [bq, bq]
      = '\n' :: (s ++ '\n' :: [bq, bq]) from by simp]
  rw [hasFence_cons_ne _ _ (by decide)]
  rw [hasFence_append_nl, h]
  decide

/-- A fence-initial text certainly contains the delimiter. -/
theorem hasFence_fenceSeq_append (m : List Char) :
    hasFence (fenceSeq ++ m) = true := by
  rw [show fenceSeq ++ m = bq :: bq :: bq :: m from by simp [fenceSeq]]
  rw [show hasFence (bq :: bq :: bq :: m)
      = (fenceAt (bq :: bq :: bq :: m) || hasFence (bq :: bq :: m)) from rfl]
  rw [show fenceAt (bq :: bq :: bq :: m) = true from by simp [fenceAt]]
  rfl

/-- Wrapped texts begin and end with a backquote, so the initial strip of
the response leaves them unchanged. -/
theorem pyStrip_fence_ends (m : List Char) :
    pyStrip (fenceSeq ++ m ++ fenceSeq) = fenceSeq ++ m ++ fenceSeq := by
  have h : fenceSeq ++ m ++ fenceSeq
      = bq :: ((bq :: bq :: (m ++ [bq, bq])) ++ [bq]) := by
    simp [fenceSeq]
  rw [h, pyStrip_bq_ends]

/-- A text with no delimiter passes through `stripFence` unchanged. -/
theorem stripFence_noFence (r : List Char) (h : hasFence r = false) :
    stripFence r = r := by
  unfold stripFence
  rw [if_neg (by simp [h])]

/-- Unfencing a tag-wrapped object recovers the stripped object text. -/
theorem stripFence_wrapTag (s : List Char) (h : hasFence s = false) :
    stripFence (wrapTag s) = pyStrip s := by
  unfold stripFence wrapTag
  rw [if_pos (by rw [List.append_assoc]; exact hasFence_fenceSeq_append _)]
  rw [show pySplit (fenceSeq ++ midTag s ++ fenceSeq) = [[], midTag s, []] from
    pySplit_three (midTag s) (hasFence_midTag s h)]
  show pyStrip ((midTag s).drop 4) = pyStrip s
  rw [show (midTag s).drop 4 = '\n' :: (s ++ ['\n']) from rfl]
  rw [pyStrip_cons_space _ _ (by decide), pyStrip_append_space _ _ (by decide)]

/-- Unfencing a bare-wrapped object recovers the stripped object text. -/
theorem stripFence_wrapBare (s : List Char) (h : hasFence s = false) :
    stripFence (wrapBare s) = pyStrip s := by
  unfold stripFence wrapBare
  rw [if_pos (by rw [List.append_assoc]; exact hasFence_fenceSeq_append _)]
  rw [show pySplit (fenceSeq ++ midBare s ++ fenceSeq) = [[], midBare s, []] from
    pySplit_three (midBare s) (hasFence_midBare s h)]
  show pyStrip (midBare s) = pyStrip s
  rw [show midBare s = '\n' :: (s ++ ['\n']) from rfl]
  rw [pyStrip_cons_space _ _ (by decide), pyStrip_append_space _ _ (by decide)]

/-- C9: for every parse behavior and every response text that does not
itself contain the fence delimiter, wrapping the text in a fenced code
block — with or without the `json` language tag — yields the same
sentiment result as the unwrapped text: both paths hand the identical
stripped string to the JSON parser. -/
theorem c9_fence_wrap_invariant (parse : List Char → ParseOutcome)
    (text cues s : List Char) (h : hasFence s = false) :
    analyze_sentiment text cues (.ok (wrapTag s)) parse
        = analyze_sentiment text cues (.ok s) parse
    ∧ analyze_sentiment text cues (.ok (wrapBare s)) parse
        = analyze_sentiment text cues (.ok s) parse := by
  have hun : stripFence (pyStrip s) = pyStrip s :=
    stripFence_noFence _ (hasFence_pyStrip s h)
  constructor
  · show normalizeParsed (parse (stripFence (pyStrip (wrapTag s))))
        = normalizeParsed (parse (stripFence (pyStrip s)))
    rw [show pyStrip (wrapTag s) = wrapTag s from pyStrip_fence_ends _,
      stripFence_wrapTag s h, hun]
  · show normalizeParsed (parse (stripFence (pyStrip (wrapBare s))))
        = normalizeParsed (parse (stripFence (pyStrip s)))
    rw [show pyStrip (wrapBare s) = wrapBare s from pyStrip_fence_ends _,
      stripFence_wrapBare s h, hun]

/-- Witness for C9 at a concrete object text and parse function. -/
theorem c9_witness :
    analyze_sentiment [] [] (.ok (wrapTag "merhaba".toList))
        (fun l => if l = "merhaba".toList
                  then .ok (some "positive".toList) (some 1) else .fail)
      = analyze_sentiment [] [] (.ok "merhaba".toList)
        (fun l => if l = "merhaba".toList
                  then .ok (some "positive".toList) (some 1) else .fail) :=
  (c9_fence_wrap_invariant
    (fun l => if l = "merhaba".toList
              then .ok (some "positive".toList) (some 1) else .fail)
    [] [] "merhaba".toList (by decide)).1
